import Mathlib

/-! Verification of objWriter (objUtil.h).

A shallow embedding of the single function of `objUtil.h`,

    void objWriter (const char *header, const char *verts, const char *vn,
                    const char *vt, const char *faces, const char *filepath) {
        FILE *fp;
        fp = fopen( filepath, "w");
        fprintf(fp, header);
        fprintf(fp, verts);
        fprintf(fp, vn);
        fprintf(fp, vt);
        fprintf(fp, faces);
        fclose(fp);
    }

together with a model of the three C library calls it makes.

Modelling conventions.
* A C string is the list of its characters before the terminating NUL; a
  `Char` stands for one C `char`. (The only character the code path inspects
  is the per-cent sign, whose byte never occurs inside a multi-byte UTF-8
  sequence, so reading at the level of characters or of bytes agrees.)
* The file system is a map from path names to file contents, plus the
  information whether a path can be opened for writing.
* Streams are opened as by POSIX `fopen(.., "w")`: no newline translation.
* Write errors on an open stream (disk full, I/O error) and the `INT_MAX`
  bound on the character count `fprintf` returns are not modelled: the code
  discards the return value of every `fprintf` and of `fclose`.
* A call whose behaviour the C standard leaves undefined has the outcome
  `Exec.undefined`.
-/

namespace ObjUtil

/-! ## Outcomes of a call -/

/-- The failure kinds a caller could be told about. -/
inductive Failure where
  | fileOpenFailure
  | writeFailure
  deriving DecidableEq, Repr

/-- Outcome of running a piece of C code: it returns normally with a value, it
reports a failure to its caller, or its behaviour is undefined. -/
inductive Exec (α : Type) where
  | returned (a : α)
  | failed (e : Failure)
  | undefined
  deriving DecidableEq, Repr

/-- Sequencing: the second computation runs only if the first returned. -/
def Exec.bind {α β : Type} : Exec α → (α → Exec β) → Exec β
  | .returned a, k => k a
  | .failed e, _ => .failed e
  | .undefined, _ => .undefined

/-- Apply a function to the value of a computation that returned. -/
def Exec.map {α β : Type} (g : α → β) : Exec α → Exec β
  | .returned a => .returned (g a)
  | .failed e => .failed e
  | .undefined => .undefined

/-! ## The file system and streams -/

/-- The file system: `files p` is the contents of the file named `p` (`none` if
there is no such file); `canOpen p` tells whether `fopen(p, "w")` succeeds
(the parent directory exists, permissions allow it, ...). -/
structure FileSystem where
  files : String → Option (List Char)
  canOpen : String → Bool

/-- Replace the contents of the file at `p` by `c`, creating the file if absent. -/
def FileSystem.write (fs : FileSystem) (p : String) (c : List Char) : FileSystem :=
  { fs with files := fun q => if q = p then some c else fs.files q }

/-- Append `c` at the end of the file at `p` (an absent file counts as empty). -/
def FileSystem.append (fs : FileSystem) (p : String) (c : List Char) : FileSystem :=
  fs.write p ((fs.files p).getD [] ++ c)

/-- An open output stream (the object a non-null `FILE *` points to): the path
it was opened on and the characters written to it that are not yet flushed. -/
structure FILE where
  path : String
  buffer : List Char
  deriving DecidableEq, Repr

/-- The call `fopen(filepath, "w")`: on success the file is created or truncated to
length zero and a stream on it is returned; on failure the result is the
null pointer (`none`) and the file system is unchanged. -/
def fopen (fs : FileSystem) (filepath : String) : Option FILE × FileSystem :=
  if fs.canOpen filepath then (some ⟨filepath, []⟩, fs.write filepath [])
  else (none, fs)

/-- Output of a `printf`-family format string processed with NO further arguments.
The flag tells whether the previous character was an unmatched per-cent sign.
An ordinary character is copied; the directive made of two per-cent signs
writes one per-cent sign; any other directive (which would read an argument
that was not passed, or is incomplete or invalid) is undefined behaviour,
rendered as `none`. -/
def formatGo : Bool → List Char → Option (List Char)
  | false, [] => some []
  | true, [] => none
  | false, c :: cs =>
      if c = '%' then formatGo true cs else (formatGo false cs).map (c :: ·)
  | true, c :: cs =>
      if c = '%' then (formatGo false cs).map ('%' :: ·) else none

/-- The characters `fprintf(fp, format)` produces, `none` when undefined. -/
def format (fmt : List Char) : Option (List Char) := formatGo false fmt

/-- The call `fprintf(fp, format)` with no further arguments: the formatted
output is appended to the stream. Passing a null stream is undefined. The
(discarded) return value is not modelled. -/
def fprintf (fp : Option FILE) (fmt : List Char) : Exec (Option FILE) :=
  match fp with
  | none => .undefined
  | some f =>
    match format fmt with
    | none => .undefined
    | some out => .returned (some { f with buffer := f.buffer ++ out })

/-- The call `fclose(fp)`: the buffered characters are written out at the end of the
file. Passing a null stream is undefined. -/
def fclose (fp : Option FILE) (fs : FileSystem) : Exec FileSystem :=
  match fp with
  | none => .undefined
  | some f => .returned (fs.append f.path f.buffer)

/-! ## The function -/

/-- The function `objWriter` of `objUtil.h`, statement by statement. The result of
`fopen` is not tested, and each fragment is passed to `fprintf` as the format. -/
def objWriter (header verts vn vt faces : List Char) (filepath : String)
    (fs : FileSystem) : Exec FileSystem :=
  let (fp, fs0) := fopen fs filepath
  (fprintf fp header).bind fun fp1 =>
  (fprintf fp1 verts).bind fun fp2 =>
  (fprintf fp2 vn).bind fun fp3 =>
  (fprintf fp3 vt).bind fun fp4 =>
  (fprintf fp4 faces).bind fun fp5 =>
  fclose fp5 fs0

/-- Reading the file at `p` back after a call: the contents found there. -/
def readBack (r : Exec FileSystem) (p : String) : Exec (Option (List Char)) :=
  r.map fun fs => fs.files p

/-- The formatted output of the five fragments, in the order of the five calls. -/
def formatAll (header verts vn vt faces : List Char) : Option (List Char) :=
  (format header).bind fun a =>
  (format verts).bind fun b =>
  (format vn).bind fun c =>
  (format vt).bind fun d =>
  (format faces).bind fun e =>
  some (a ++ b ++ c ++ d ++ e)

/-- A file system with no files in which every path can be opened. -/
def emptyFS : FileSystem := { files := fun _ => none, canOpen := fun _ => true }

/-- A file system holding one file `out.obj`; only paths without a directory
separator can be opened (no subdirectory exists). -/
def flatFS : FileSystem :=
  { files := fun q => if q = "out.obj" then some "old contents\n".toList else none
    canOpen := fun q => !(q.toList.contains '/') }

/-! ## Basic facts about the model -/

theorem format_nil : format [] = some [] := rfl

/-- A template without a per-cent sign is emitted unchanged. -/
theorem format_of_no_percent (s : List Char) (hs : '%' ∉ s) : format s = some s := by
  unfold format
  induction s with
  | nil => rfl
  | cons c cs ih =>
    have hc : c ≠ '%' := fun e => hs (by simp [e])
    have hcs : '%' ∉ cs := fun m => hs (List.mem_cons_of_mem _ m)
    simp [formatGo, hc, ih hcs]

theorem write_write (fs : FileSystem) (p : String) (a b : List Char) :
    (fs.write p a).write p b = fs.write p b := by
  simp only [FileSystem.write]
  congr 1
  funext q
  by_cases hq : q = p <;> simp [hq]

theorem write_files_self (fs : FileSystem) (p : String) (a : List Char) :
    (fs.write p a).files p = some a := by
  simp [FileSystem.write]

theorem write_files_other (fs : FileSystem) (p q : String) (a : List Char) (hq : q ≠ p) :
    (fs.write p a).files q = fs.files q := by
  simp [FileSystem.write, hq]

theorem write_canOpen (fs : FileSystem) (p : String) (a : List Char) :
    (fs.write p a).canOpen = fs.canOpen := rfl

theorem write_append (fs : FileSystem) (p : String) (a b : List Char) :
    (fs.write p a).append p b = fs.write p (a ++ b) := by
  simp [FileSystem.append, write_files_self, write_write]

/-- What a call of `objWriter` does, in closed form: with an openable path and five
fragments that are well-defined formats, the file is replaced by the five
formatted outputs; in every other case the behaviour is undefined. -/
theorem objWriter_eq (header verts vn vt faces : List Char) (p : String) (fs : FileSystem) :
    objWriter header verts vn vt faces p fs =
      if fs.canOpen p = true then
        match formatAll header verts vn vt faces with
        | some out => Exec.returned (fs.write p out)
        | none => Exec.undefined
      else Exec.undefined := by
  by_cases hp : fs.canOpen p = true
  · simp only [objWriter, fopen, hp, if_true, formatAll, fprintf]
    cases format header <;> simp only [Exec.bind, Option.bind]
    cases format verts <;> simp only [Exec.bind, Option.bind]
    cases format vn <;> simp only [Exec.bind, Option.bind]
    cases format vt <;> simp only [Exec.bind, Option.bind]
    cases format faces <;> simp only [Exec.bind, Option.bind]
    simp [fclose, write_append]
  · simp [objWriter, fopen, hp, fprintf, Exec.bind]

/-- A call returns exactly when the path can be opened and all five fragments
are well-defined formats; the file then holds the five formatted outputs. -/
theorem objWriter_returned_iff (header verts vn vt faces : List Char) (p : String)
    (fs fs1 : FileSystem) :
    objWriter header verts vn vt faces p fs = Exec.returned fs1 ↔
      fs.canOpen p = true ∧
        ∃ out, formatAll header verts vn vt faces = some out ∧ fs1 = fs.write p out := by
  rw [objWriter_eq]
  by_cases hp : fs.canOpen p = true
  · rw [if_pos hp]
    cases hf : formatAll header verts vn vt faces with
    | none => simp
    | some out =>
      simp only [Exec.returned.injEq, hp, true_and, Option.some.injEq, exists_eq_left']
      exact eq_comm
  · rw [if_neg hp]
    simp [hp]

/-- Reading the written file back, in closed form. -/
theorem readBack_objWriter (header verts vn vt faces : List Char) (p : String)
    (fs : FileSystem) (hp : fs.canOpen p = true) :
    readBack (objWriter header verts vn vt faces p fs) p =
      match formatAll header verts vn vt faces with
      | some out => Exec.returned (some out)
      | none => Exec.undefined := by
  rw [objWriter_eq, if_pos hp]
  cases formatAll header verts vn vt faces <;> simp [readBack, Exec.map, write_files_self]

/-- Five fragments without a per-cent sign format to their concatenation. -/
theorem formatAll_of_no_percent (header verts vn vt faces : List Char)
    (h1 : '%' ∉ header) (h2 : '%' ∉ verts) (h3 : '%' ∉ vn) (h4 : '%' ∉ vt)
    (h5 : '%' ∉ faces) :
    formatAll header verts vn vt faces = some (header ++ verts ++ vn ++ vt ++ faces) := by
  simp [formatAll, format_of_no_percent, h1, h2, h3, h4, h5]

/-- With all five fragments empty the file is left empty. -/
theorem objWriter_all_empty (p : String) (fs : FileSystem) (hp : fs.canOpen p = true) :
    objWriter [] [] [] [] [] p fs = Exec.returned (fs.write p []) := by
  rw [objWriter_eq, if_pos hp]
  rfl

/-! ## The claims -/

/-- C1 (evaluation at a failing input). With five non-empty fragments whose header
contains the two-character directive for a literal per-cent sign, the file
read back is one character shorter than the concatenation of the fragments:
the header was interpreted as a format, not copied. -/
theorem objWriter_nonempty_fragments_not_verbatim :
    readBack (objWriter "# scale 50%%\n".toList "v 0 0 0\n".toList "vn 0 0 1\n".toList
        "vt 0 0\n".toList "f 1 1 1\n".toList "out.obj" emptyFS) "out.obj"
      = Exec.returned (some "# scale 50%\nv 0 0 0\nvn 0 0 1\nvt 0 0\nf 1 1 1\n".toList)
    ∧ "# scale 50%\nv 0 0 0\nvn 0 0 1\nvt 0 0\nf 1 1 1\n".toList
      ≠ "# scale 50%%\n".toList ++ "v 0 0 0\n".toList ++ "vn 0 0 1\n".toList
          ++ "vt 0 0\n".toList ++ "f 1 1 1\n".toList := by
  constructor
  · rfl
  · decide

/-- C2. The scenario of the specification: whenever `out.obj` can be opened for
writing, the call with the five given fragments leaves `out.obj` with exactly
the six stated lines. -/
theorem objWriter_scenario (fs : FileSystem) (hp : fs.canOpen "out.obj" = true) :
    readBack (objWriter "# mesh\n".toList "v 0 0 0\nv 1 0 0\n".toList "vn 0 0 1\n".toList
        "vt 0 0\n".toList "f 1 2\n".toList "out.obj" fs) "out.obj"
      = Exec.returned (some "# mesh\nv 0 0 0\nv 1 0 0\nvn 0 0 1\nvt 0 0\nf 1 2\n".toList) := by
  rw [readBack_objWriter _ _ _ _ _ _ _ hp]
  rfl

theorem objWriter_scenario_witness :
    flatFS.canOpen "out.obj" = true ∧
    readBack (objWriter "# mesh\n".toList "v 0 0 0\nv 1 0 0\n".toList "vn 0 0 1\n".toList
        "vt 0 0\n".toList "f 1 2\n".toList "out.obj" flatFS) "out.obj"
      = Exec.returned (some "# mesh\nv 0 0 0\nv 1 0 0\nvn 0 0 1\nvt 0 0\nf 1 2\n".toList) :=
  ⟨by decide, objWriter_scenario flatFS (by decide)⟩

/-- C3. Overwrite semantics: once a first call on `p` has returned, a second call on
`p` leaves at `p` what the same call leaves there when made alone on any
file system in which `p` can be opened (in particular one where the file is
empty or absent), namely exactly the output of the second call: nothing of
the first call survives and nothing is appended. -/
theorem objWriter_overwrite (h1 v1 n1 t1 f1 h2 v2 n2 t2 f2 : List Char) (p : String)
    (fs fs1 fs0 : FileSystem)
    (hfirst : objWriter h1 v1 n1 t1 f1 p fs = Exec.returned fs1)
    (h0 : fs0.canOpen p = true) :
    readBack (objWriter h2 v2 n2 t2 f2 p fs1) p = readBack (objWriter h2 v2 n2 t2 f2 p fs0) p
    ∧ ∀ out, formatAll h2 v2 n2 t2 f2 = some out →
        readBack (objWriter h2 v2 n2 t2 f2 p fs1) p = Exec.returned (some out) := by
  obtain ⟨hp, out1, -, rfl⟩ := (objWriter_returned_iff _ _ _ _ _ _ _ _).1 hfirst
  have hp1 : (fs.write p out1).canOpen p = true := hp
  rw [readBack_objWriter _ _ _ _ _ _ _ hp1, readBack_objWriter _ _ _ _ _ _ _ h0]
  refine ⟨rfl, fun out hout => ?_⟩
  rw [hout]

theorem objWriter_overwrite_witness :
    readBack (objWriter "# second\n".toList "v 1 1 1\n".toList [] [] "f 1 1 1\n".toList "out.obj"
        (flatFS.write "out.obj" "# mesh\nv 0 0 0\nvn 0 0 1\nvt 0 0\nf 1 1 1\n".toList)) "out.obj"
      = readBack (objWriter "# second\n".toList "v 1 1 1\n".toList [] [] "f 1 1 1\n".toList
          "out.obj" emptyFS) "out.obj"
    ∧ readBack (objWriter "# second\n".toList "v 1 1 1\n".toList [] [] "f 1 1 1\n".toList "out.obj"
        (flatFS.write "out.obj" "# mesh\nv 0 0 0\nvn 0 0 1\nvt 0 0\nf 1 1 1\n".toList)) "out.obj"
      = Exec.returned (some "# second\nv 1 1 1\nf 1 1 1\n".toList) := by
  have h := objWriter_overwrite "# mesh\n".toList "v 0 0 0\n".toList "vn 0 0 1\n".toList
    "vt 0 0\n".toList "f 1 1 1\n".toList
    "# second\n".toList "v 1 1 1\n".toList [] [] "f 1 1 1\n".toList "out.obj"
    flatFS (flatFS.write "out.obj" "# mesh\nv 0 0 0\nvn 0 0 1\nvt 0 0\nf 1 1 1\n".toList) emptyFS
    (by rw [objWriter_eq]; rfl) rfl
  exact ⟨h.1, h.2 _ rfl⟩

/-- C4 (evaluation at a failing input). With the header, the normals and the
texture coordinates empty, the file read back is not the concatenation of
the five fragments: the per-cent directive in the faces fragment is
interpreted, so one of its characters is missing from the file. -/
theorem objWriter_empty_fragments_not_verbatim :
    readBack (objWriter [] "v 0 0 0\n".toList [] [] "# 100%% done\n".toList
        "out.obj" emptyFS) "out.obj"
      = Exec.returned (some "v 0 0 0\n# 100% done\n".toList)
    ∧ "v 0 0 0\n# 100% done\n".toList
      ≠ [] ++ "v 0 0 0\n".toList ++ [] ++ [] ++ "# 100%% done\n".toList := by
  constructor
  · rfl
  · decide

/-- C5. Idempotence: on a path that can be opened, two calls in succession with the
same arguments have the same outcome as one call, for every choice of the
five fragments; and when the fragments are well-defined formats that outcome
is a normal return with the file replaced by their output. -/
theorem objWriter_idempotent (header verts vn vt faces : List Char) (p : String)
    (fs : FileSystem) (hp : fs.canOpen p = true) :
    (objWriter header verts vn vt faces p fs).bind (objWriter header verts vn vt faces p)
      = objWriter header verts vn vt faces p fs
    ∧ ∀ out, formatAll header verts vn vt faces = some out →
        objWriter header verts vn vt faces p fs = Exec.returned (fs.write p out) := by
  have key : ∀ out, formatAll header verts vn vt faces = some out →
      objWriter header verts vn vt faces p fs = Exec.returned (fs.write p out) := by
    intro out hout
    rw [objWriter_eq, if_pos hp, hout]
  refine ⟨?_, key⟩
  cases hf : formatAll header verts vn vt faces with
  | none =>
    have hu : objWriter header verts vn vt faces p fs = Exec.undefined := by
      rw [objWriter_eq, if_pos hp, hf]
    rw [hu]
    rfl
  | some out =>
    have hp1 : (fs.write p out).canOpen p = true := hp
    rw [key out hf]
    show objWriter header verts vn vt faces p (fs.write p out) = _
    rw [objWriter_eq, if_pos hp1, hf]
    simp only [write_write]

theorem objWriter_idempotent_witness :
    flatFS.canOpen "out.obj" = true ∧
    (objWriter "# mesh\n".toList "v 0 0 0\n".toList [] [] "f 1 1 1\n".toList "out.obj" flatFS).bind
        (objWriter "# mesh\n".toList "v 0 0 0\n".toList [] [] "f 1 1 1\n".toList "out.obj")
      = Exec.returned (flatFS.write "out.obj" "# mesh\nv 0 0 0\nf 1 1 1\n".toList) := by
  have h := objWriter_idempotent "# mesh\n".toList "v 0 0 0\n".toList [] []
    "f 1 1 1\n".toList "out.obj" flatFS (by decide)
  refine ⟨by decide, ?_⟩
  rw [h.1]
  exact h.2 _ rfl

/-- C6. Frame: a call on `filepath` that returns leaves every other path as it was
(the file at `q` exists afterwards iff it existed before, with the same
contents), and which paths can be opened is unchanged; and the call does
return whenever the path can be opened and the fragments are well-defined
formats. -/
theorem objWriter_frame (header verts vn vt faces : List Char) (p : String)
    (fs : FileSystem) (q : String) (hq : q ≠ p) :
    (∀ fs1, objWriter header verts vn vt faces p fs = Exec.returned fs1 →
        fs1.files q = fs.files q ∧ fs1.canOpen = fs.canOpen)
    ∧ (fs.canOpen p = true → ∀ out, formatAll header verts vn vt faces = some out →
        ∃ fs1, objWriter header verts vn vt faces p fs = Exec.returned fs1) := by
  constructor
  · intro fs1 h
    obtain ⟨-, out, -, rfl⟩ := (objWriter_returned_iff _ _ _ _ _ _ _ _).1 h
    exact ⟨write_files_other fs p q out hq, rfl⟩
  · intro hp out hout
    exact ⟨fs.write p out, (objWriter_returned_iff _ _ _ _ _ _ _ _).2 ⟨hp, out, hout, rfl⟩⟩

theorem objWriter_frame_witness :
    "out.obj" ≠ "mesh.obj" ∧
    objWriter "# mesh\n".toList "v 0 0 0\n".toList [] [] "f 1 1 1\n".toList "mesh.obj" flatFS
      = Exec.returned (flatFS.write "mesh.obj" "# mesh\nv 0 0 0\nf 1 1 1\n".toList) ∧
    (flatFS.write "mesh.obj" "# mesh\nv 0 0 0\nf 1 1 1\n".toList).files "out.obj"
      = flatFS.files "out.obj" := by
  have h := objWriter_frame "# mesh\n".toList "v 0 0 0\n".toList [] [] "f 1 1 1\n".toList
    "mesh.obj" flatFS "out.obj" (by decide)
  have hr : objWriter "# mesh\n".toList "v 0 0 0\n".toList [] [] "f 1 1 1\n".toList
      "mesh.obj" flatFS
      = Exec.returned (flatFS.write "mesh.obj" "# mesh\nv 0 0 0\nf 1 1 1\n".toList) := by
    rw [objWriter_eq]
    rfl
  exact ⟨by decide, hr, (h.1 _ hr).1⟩

/-- C7 (counterexample). On a path whose directory does not exist the call does not
report a file-open failure to its caller. -/
theorem objWriter_open_failure_not_signalled :
    flatFS.canOpen "missing/out.obj" = false ∧
    objWriter "# mesh\n".toList "v 0 0 0\n".toList "vn 0 0 1\n".toList "vt 0 0\n".toList
        "f 1 1 1\n".toList "missing/out.obj" flatFS
      ≠ Exec.failed Failure.fileOpenFailure := by
  refine ⟨by decide, ?_⟩
  rw [objWriter_eq]
  intro h
  cases h

/-- C7 (amended). When the open step fails, `fopen` yields the null stream and
changes no file; `objWriter` does not test that result and hands the null
stream to `fprintf`, so the behaviour of the call is undefined, and no
failure of any kind is reported to the caller. -/
theorem objWriter_open_failure_undefined (header verts vn vt faces : List Char)
    (p : String) (fs : FileSystem) (hp : fs.canOpen p = false) :
    fopen fs p = (none, fs)
    ∧ objWriter header verts vn vt faces p fs = Exec.undefined
    ∧ (∀ e, objWriter header verts vn vt faces p fs ≠ Exec.failed e) := by
  have hu : objWriter header verts vn vt faces p fs = Exec.undefined := by
    rw [objWriter_eq]
    simp [hp]
  refine ⟨by simp [fopen, hp], hu, ?_⟩
  intro e h
  rw [hu] at h
  cases h

theorem objWriter_open_failure_undefined_witness :
    flatFS.canOpen "sub/out.obj" = false ∧
    objWriter "# mesh\n".toList [] [] [] [] "sub/out.obj" flatFS = Exec.undefined :=
  ⟨by decide,
    (objWriter_open_failure_undefined "# mesh\n".toList [] [] [] [] "sub/out.obj" flatFS
      (by decide)).2.1⟩

/-- C8. Format-string interpretation: each of the five fragments is the format of a
formatted print without further arguments, so the file holds the formatted
outputs (`formatAll`), not the fragments; for the header `100%%` followed by
a newline and the other fragments empty, the file holds `100%` followed by
a newline, which differs from the header. -/
theorem objWriter_fragments_are_formats (p : String) (fs : FileSystem)
    (hp : fs.canOpen p = true) :
    (∀ header verts vn vt faces : List Char,
        readBack (objWriter header verts vn vt faces p fs) p =
          match formatAll header verts vn vt faces with
          | some out => Exec.returned (some out)
          | none => Exec.undefined)
    ∧ readBack (objWriter "100%%\n".toList [] [] [] [] p fs) p
        = Exec.returned (some "100%\n".toList)
    ∧ "100%\n".toList ≠ "100%%\n".toList := by
  refine ⟨fun header verts vn vt faces => readBack_objWriter _ _ _ _ _ _ _ hp, ?_, by decide⟩
  rw [readBack_objWriter _ _ _ _ _ _ _ hp]
  rfl

theorem objWriter_fragments_are_formats_witness :
    emptyFS.canOpen "a.obj" = true ∧
    readBack (objWriter "100%%\n".toList [] [] [] [] "a.obj" emptyFS) "a.obj"
      = Exec.returned (some "100%\n".toList) :=
  ⟨rfl, (objWriter_fragments_are_formats "a.obj" emptyFS rfl).2.1⟩

/-- C9. Literal output for directive-free fragments: when none of the five fragments
contains a per-cent sign and the path can be opened, the call returns and the
file at the path is exactly the concatenation of the five fragments. -/
theorem objWriter_literal_of_no_percent (header verts vn vt faces : List Char)
    (p : String) (fs : FileSystem) (hp : fs.canOpen p = true)
    (h1 : '%' ∉ header) (h2 : '%' ∉ verts) (h3 : '%' ∉ vn) (h4 : '%' ∉ vt)
    (h5 : '%' ∉ faces) :
    objWriter header verts vn vt faces p fs
        = Exec.returned (fs.write p (header ++ verts ++ vn ++ vt ++ faces))
    ∧ readBack (objWriter header verts vn vt faces p fs) p
        = Exec.returned (some (header ++ verts ++ vn ++ vt ++ faces)) := by
  have hf := formatAll_of_no_percent header verts vn vt faces h1 h2 h3 h4 h5
  constructor
  · rw [objWriter_eq, if_pos hp, hf]
  · rw [readBack_objWriter _ _ _ _ _ _ _ hp, hf]

theorem objWriter_literal_of_no_percent_witness :
    readBack (objWriter "# cube\n".toList "v 1 2 3\n".toList "vn 0 1 0\n".toList
        "vt 0.5 0.5\n".toList "f 1/1/1 1/1/1 1/1/1\n".toList "cube.obj" flatFS) "cube.obj"
      = Exec.returned (some ("# cube\n".toList ++ "v 1 2 3\n".toList ++ "vn 0 1 0\n".toList
          ++ "vt 0.5 0.5\n".toList ++ "f 1/1/1 1/1/1 1/1/1\n".toList)) :=
  (objWriter_literal_of_no_percent "# cube\n".toList "v 1 2 3\n".toList "vn 0 1 0\n".toList
    "vt 0.5 0.5\n".toList "f 1/1/1 1/1/1 1/1/1\n".toList "cube.obj" flatFS
    (by decide) (by decide) (by decide) (by decide) (by decide) (by decide)).2

end ObjUtil
